import Mathlib

/-!
Verification of the extension-loader and authentication-broker core of the
podman-desktop repository, shallowly embedded in Lean 4.

The embedding translates the TypeScript sources:
* `ExtensionLoader` (loadExtension, activateExtension, deactivateExtension,
  removeExtension, loadRuntime) and
* `AuthenticationImpl` (registerAuthenticationProvider, getSession,
  createCallback, loginDialogClosedByUser, sccheduleLoginDialog)
into pure Lean functions.  JavaScript `Map` objects become association lists
(insertion ordered, unique keys), thrown exceptions become an `Option String`
error component of the result, the `apiSender.send` side effects become an
event trace carried in the state, and the process-wide `require.cache`
becomes an explicit store of module objects addressed by numeric references
(object identity).

Two JavaScript semantic facts used by the embedding, both standard:
* the executor passed to `new Promise(executor)` runs synchronously, during
  the `Promise` construction itself (ECMA-262 promise constructor);
* an exception thrown by an `Array.prototype.forEach` callback propagates
  out of `forEach` immediately, so later elements are not visited.
-/

namespace PodmanDesktop

/-! ## Association-list model of a JavaScript `Map` -/

/-- JavaScript `Map.get`: first binding of the key, if any. -/
def mget {α : Type} : List (String × α) → String → Option α
  | [], _ => none
  | (k', v) :: rest, k => if k' = k then some v else mget rest k

/-- JavaScript `Map.set`: replace the binding in place if the key exists, else append. -/
def mset {α : Type} : List (String × α) → String → α → List (String × α)
  | [], k, v => [(k, v)]
  | (k', v') :: rest, k, v =>
      if k' = k then (k, v) :: rest else (k', v') :: mset rest k v

/-- JavaScript `Map.delete`: remove the binding of the key, if any. -/
def mdel {α : Type} : List (String × α) → String → List (String × α)
  | [], _ => []
  | (k', v') :: rest, k => if k' = k then rest else (k', v') :: mdel rest k

/-! ## Authentication broker (`AuthenticationImpl`)

The state carries the three fields of `AuthenticationImpl`
(`_authenticationProviders`, `_loginDialogRequests`, `_loginDialogQueue`)
plus the trace of `apiSender.send` calls.  The authentication provider
implementation is extension-supplied code; we embed the repository's own
single-account provider `AuthenticationProviderSingleAccout`
(`getSessions` reports the held session if any, ignoring the scopes;
`createSession` stores and returns a freshly minted session), with the
session minted for given scopes kept as a function parameter `mkSession`
standing for `RandomAuthenticationSession`. -/

/-- An `AuthenticationSession`: id, account label and scopes. -/
structure Session where
  sid : String
  accountLabel : String
  scopes : List String
deriving DecidableEq

/-- State of `AuthenticationProviderSingleAccout`: at most one held session,
plus the session `createSession` would mint for given scopes. -/
structure ProviderState where
  session : Option Session
  mkSession : List String → Session

/-- Embeds `AuthenticationProviderSingleAccout.getSessions`: the held session if
any; the scopes argument is ignored by this provider. -/
def providerGetSessions (p : ProviderState) (_scopes : List String) : List Session :=
  match p.session with
  | some s => [s]
  | none => []

/-- Embeds `AuthenticationProviderSingleAccout.createSession`: mint a session for
the scopes, store it as the held session, return it.  (The login-dialog
callback argument is accepted and ignored by this provider.) -/
def providerCreateSession (p : ProviderState) (scopes : List String) :
    ProviderState × Session :=
  let s := p.mkSession scopes
  ({ p with session := some s }, s)

/-- Entry type `ProviderWithMetadata`: the entry stored in `_authenticationProviders`. -/
structure ProviderWithMetadata where
  id : String
  label : String
  provider : ProviderState
  supportsMultipleAccounts : Bool

/-- Events broadcast through `apiSender.send`. -/
inductive AEvent where
  | displayDialog (url providerId : String)
  | closeDialog
  | providerUpdate (id : String)
deriving DecidableEq

/-- State of an `AuthenticationImpl` instance.  `loginDialogQueue` models
`_loginDialogQueue`: the serial chain of promise units that have been
queued and whose close notification has not fired yet. -/
structure AuthState where
  providers : List (String × ProviderWithMetadata)
  loginDialogRequests : List (String × Unit)
  loginDialogQueue : List String
  sent : List AEvent

/-- The fresh `AuthenticationImpl` built by the constructor. -/
def authInit : AuthState :=
  { providers := [], loginDialogRequests := [], loginDialogQueue := [], sent := [] }

/-- Embeds `registerAuthenticationProvider`: throws if the id is already in the
map, otherwise stores the metadata (defaulting
`supportsMultipleAccounts` to `false`) and broadcasts a provider-update
event.  The error is returned as `some message`; a thrown error mutates
nothing, so the state component of the error case is the input state. -/
def registerAuthenticationProvider (st : AuthState) (id label : String)
    (provider : ProviderState) (options : Option Bool) :
    AuthState × Option String :=
  if (mget st.providers id).isSome then
    (st, some ("An authentication provider with id '" ++ id ++ "' is already registered."))
  else
    ({ st with
        providers := mset st.providers id
          { id := id, label := label, provider := provider,
            supportsMultipleAccounts := options.getD false },
        sent := st.sent ++ [AEvent.providerUpdate id] }, none)

/-- The body of the dialog handle's `dispose` built in `createCallback`:
delete the per-provider pending request, broadcast
`close-authentication-dialog`, and fire the close emitter — which resolves
the queued unit, letting the serial queue proceed (modelled by removing
the provider's unit from the queue). -/
def disposeLoginRequest (st : AuthState) (providerId : String) : AuthState :=
  { st with
      loginDialogRequests := mdel st.loginDialogRequests providerId,
      sent := st.sent ++ [AEvent.closeDialog],
      loginDialogQueue := st.loginDialogQueue.erase providerId }

/-- Embeds `loginDialogClosedByUser`: look up the pending request and dispose it
via optional chaining — with no pending request, `callback?.dispose()`
does nothing at all. -/
def loginDialogClosedByUser (st : AuthState) (providerId : String) : AuthState :=
  match mget st.loginDialogRequests providerId with
  | none => st
  | some _ => disposeLoginRequest st providerId

/-- Invoking the function returned by `createCallback(providerId)` on a
URL.  The body calls `sccheduleLoginDialog(new Promise(executor))`: the
`Promise` executor runs synchronously during construction, so the
`display-authentication-dialog` broadcast and the resolution of the outer
promise happen immediately at the call, before the serial
`_loginDialogQueue` is even consulted; the queue merely chains onto the
already-running promise.  Afterwards the handle is recorded in
`_loginDialogRequests`. -/
def invokeLoginCallback (st : AuthState) (providerId url : String) : AuthState :=
  { st with
      sent := st.sent ++ [AEvent.displayDialog url providerId],
      loginDialogQueue := st.loginDialogQueue ++ [providerId],
      loginDialogRequests := mset st.loginDialogRequests providerId () }

/-- Options type `AuthenticationGetSessionOptions`; all three flags default to unset. -/
structure GetSessionOptions where
  forceNewSession : Bool := false
  silent : Bool := false
  clearSessionPreference : Bool := false

/-- Embeds `isAccessAllowed`: the stubbed access policy, always permitting. -/
def isAccessAllowed (_providerId _accountName _extensionId : String) : Bool :=
  true

/-- Result of a `getSession` call: the state after the call, the thrown
error or returned session, and how many times the call invoked the
provider's `createSession`. -/
structure GetSessionOutcome where
  state : AuthState
  result : Except String Session
  createSessionCalls : Nat

/-- Embeds `getSession`: reject unsupported options, fail for an unregistered
provider, reuse the first reported session when one exists and access is
allowed, otherwise call the provider's `createSession` (passing the
login-dialog callback, which our embedded provider ignores). -/
def getSession (st : AuthState) (requestingExtensionId providerId : String)
    (scopes : List String) (options : GetSessionOptions) : GetSessionOutcome :=
  if options.forceNewSession then
    ⟨st, Except.error "Option is not supported. Please remove forceNewSession option.", 0⟩
  else if options.silent then
    ⟨st, Except.error "Option is not supported. Please remove silent option.", 0⟩
  else if options.clearSessionPreference then
    ⟨st, Except.error "Option is not supported. Please remove clearSessionPreference option.", 0⟩
  else
    match mget st.providers providerId with
    | none =>
        ⟨st, Except.error ("Requested authentication provider " ++ providerId ++ " is not installed."), 0⟩
    | some meta =>
        match providerGetSessions meta.provider scopes with
        | s :: _ =>
            if isAccessAllowed providerId s.accountLabel requestingExtensionId then
              ⟨st, Except.ok s, 0⟩
            else
              let pc := providerCreateSession meta.provider scopes
              ⟨{ st with providers := mset st.providers providerId { meta with provider := pc.1 } },
                Except.ok pc.2, 1⟩
        | [] =>
            let pc := providerCreateSession meta.provider scopes
            ⟨{ st with providers := mset st.providers providerId { meta with provider := pc.1 } },
              Except.ok pc.2, 1⟩

/-- A sample session factory for concrete runs (what
`RandomAuthenticationSession` produces, with fixed ids). -/
def demoMkSession (scopes : List String) : Session :=
  { sid := "sid1", accountLabel := "acct1", scopes := scopes }

/-- A sample provider entry holding no session yet. -/
def demoMeta : ProviderWithMetadata :=
  { id := "github", label := "GitHub",
    provider := { session := none, mkSession := demoMkSession },
    supportsMultipleAccounts := false }

/-- An authentication state with the sample provider registered. -/
def demoAuthState : AuthState :=
  { providers := [("github", demoMeta)],
    loginDialogRequests := [], loginDialogQueue := [],
    sent := [AEvent.providerUpdate "github"] }

/-! ## Extension registry and lifecycle (`ExtensionLoader`)

Thrown/rejected errors are the `Option String` component of each result;
the state component always reflects exactly the mutations performed before
the throw.  Filesystem reads, the module-resolution override, the
capability-API factory and the configuration registration are collaborator
calls without bearing on the claims below; the manifest existence check
and the behavior of the extension's runtime module are inputs, bundled in
`ExtensionModule`. -/

/-- A disposable subscription registered in an extension context;
`throws` says whether its `dispose()` throws. -/
structure Subscription where
  name : String
  throws : Bool
deriving DecidableEq

/-- Embeds `subscriptions.forEach(subscription => subscription.dispose())`:
JavaScript `forEach` does not catch callback exceptions, so a throwing
`dispose` aborts the iteration.  Returns the names whose `dispose` was
invoked and the propagated error, if any. -/
def disposeSubscriptions : List Subscription → List String × Option String
  | [] => ([], none)
  | s :: rest =>
      if s.throws then ([s.name], some ("dispose failed: " ++ s.name))
      else
        let (attempted, err) := disposeSubscriptions rest
        (s.name :: attempted, err)

instance {ε α : Type} [DecidableEq ε] [DecidableEq α] : DecidableEq (Except ε α) := fun a b =>
  match a, b with
  | Except.ok x, Except.ok y =>
      if h : x = y then isTrue (by rw [h]) else isFalse (by intro hc; cases hc; exact h rfl)
  | Except.error x, Except.error y =>
      if h : x = y then isTrue (by rw [h]) else isFalse (by intro hc; cases hc; exact h rfl)
  | Except.ok _, Except.error _ => isFalse (by intro hc; cases hc)
  | Except.error _, Except.ok _ => isFalse (by intro hc; cases hc)

/-- An entry of the `activatedExtensions` map: id, the optional stored
`deactivate` export (with the outcome its invocation would have), and
the context's subscriptions. -/
structure ActivatedExtension where
  id : String
  deactivateFunction : Option (Except String Unit)
  subscriptions : List Subscription
deriving DecidableEq

/-- An entry of the `analyzedExtensions` map (the fields the claims
touch: id, root path, removable flag). -/
structure AnalyzedExtension where
  id : String
  path : String
  removable : Bool
deriving DecidableEq

/-- Observable loader effects: warnings, `apiSender.send` broadcasts and
recursive bundle deletion. -/
inductive LEvent where
  | warnNoManifest (path : String)
  | extensionRemoved
  | fsRemove (path : String)
deriving DecidableEq

/-- Loader state: the two maps, the log of `dispose()` invocations made on
subscriptions, and the effect trace. -/
structure LoaderState where
  analyzedExtensions : List (String × AnalyzedExtension)
  activatedExtensions : List (String × ActivatedExtension)
  disposed : List String
  events : List LEvent
deriving DecidableEq

/-- A freshly constructed loader. -/
def loaderInit : LoaderState :=
  { analyzedExtensions := [], activatedExtensions := [], disposed := [], events := [] }

/-- What `loadExtension` finds at an extension path: whether a
`package.json` manifest exists, the manifest `name` (the extension id),
and the runtime module's optional `activate`/`deactivate` exports —
`activateResult` is `none` when there is no `activate` export, otherwise
the outcome of awaiting it; `subscriptionsRegistered` are the disposables
the extension pushes onto its context during activation. -/
structure ExtensionModule where
  hasManifest : Bool
  manifestName : String
  activateResult : Option (Except String Unit)
  deactivateFunction : Option (Except String Unit)
  subscriptionsRegistered : List Subscription
deriving DecidableEq

/-- Embeds `activateExtension`: build a fresh context, capture the optional
`deactivate` export, await `activate` when present — a rejection
propagates before anything is registered — and only then record the
`ActivatedExtension` in the activated map. -/
def activateExtension (st : LoaderState) (m : ExtensionModule) :
    LoaderState × Option String :=
  let registered : LoaderState := { st with
    activatedExtensions := mset st.activatedExtensions m.manifestName
      { id := m.manifestName,
        deactivateFunction := m.deactivateFunction,
        subscriptions := m.subscriptionsRegistered } }
  match m.activateResult with
  | some (Except.error e) => (st, some e)
  | some (Except.ok _) => (registered, none)
  | none => (registered, none)

/-- Embeds `loadExtension`: with no `package.json`, warn and return; otherwise
store the `AnalyzedExtension` (id from the manifest name) and activate.
An activation error propagates to the caller. -/
def loadExtension (st : LoaderState) (extensionPath : String) (removable : Bool)
    (m : ExtensionModule) : LoaderState × Option String :=
  if !m.hasManifest then
    ({ st with events := st.events ++ [LEvent.warnNoManifest extensionPath] }, none)
  else
    let st' := { st with
      analyzedExtensions := mset st.analyzedExtensions m.manifestName
        { id := m.manifestName, path := extensionPath, removable := removable } }
    activateExtension st' m

/-- The second half of `deactivateExtension`: the `forEach` disposal of
the context subscriptions followed — only when no dispose threw — by the
deletion of the id from the activated map. -/
def deactivateDispose (st : LoaderState) (extensionId : String)
    (ext : ActivatedExtension) : LoaderState × Option String :=
  let r := disposeSubscriptions ext.subscriptions
  let st' := { st with disposed := st.disposed ++ r.1 }
  match r.2 with
  | some e => (st', some e)
  | none =>
      ({ st' with activatedExtensions := mdel st'.activatedExtensions extensionId }, none)

/-- Embeds `deactivateExtension`: no-op when the id is not activated; otherwise
await the stored `deactivate` callback (a rejection propagates at once),
then run `deactivateDispose` above: dispose the context subscriptions via
`forEach` (a throwing `dispose` aborts the loop and propagates), and only
then delete the id from the activated map. -/
def deactivateExtension (st : LoaderState) (extensionId : String) :
    LoaderState × Option String :=
  match mget st.activatedExtensions extensionId with
  | none => (st, none)
  | some ext =>
      match ext.deactivateFunction with
      | some (Except.error e) => (st, some e)
      | some (Except.ok _) => deactivateDispose st extensionId ext
      | none => deactivateDispose st extensionId ext

/-- Embeds `removeExtension`: the whole body is guarded by
`if (extension)` — an id absent from the analyzed map is silently
ignored.  Otherwise deactivate (a deactivation error propagates), then
either delete the bundle recursively, drop the analyzed entry and
broadcast `extension-removed`, or — for a non-removable extension —
throw an error naming the id, leaving the analyzed entry in place. -/
def removeExtension (st : LoaderState) (extensionId : String) :
    LoaderState × Option String :=
  match mget st.analyzedExtensions extensionId with
  | none => (st, none)
  | some ext =>
      let r := deactivateExtension st extensionId
      match r.2 with
      | some e => (r.1, some e)
      | none =>
          if ext.removable then
            ({ r.1 with
                events := r.1.events ++ [LEvent.fsRemove ext.path, LEvent.extensionRemoved],
                analyzedExtensions := mdel r.1.analyzedExtensions extensionId }, none)
          else
            (r.1, some ("Extension " ++ extensionId ++ " is not removable"))

/-- The lifecycle operations a run of the loader interleaves. -/
inductive LoaderOp where
  | load (path : String) (removable : Bool) (m : ExtensionModule)
  | deactivate (id : String)

/-- Apply one operation, keeping the mutated state (errors propagate to
the operation's caller but leave the loader running). -/
def applyLoaderOp (st : LoaderState) : LoaderOp → LoaderState
  | LoaderOp.load p r m => (loadExtension st p r m).1
  | LoaderOp.deactivate i => (deactivateExtension st i).1

/-- Run a sequence of lifecycle operations. -/
def runLoaderOps (st : LoaderState) : List LoaderOp → LoaderState
  | [] => st
  | op :: rest => runLoaderOps (applyLoaderOp st op) rest

/-- The activated-map content for one extension id, as the specification
describes it: restated from the claim, not from the code.  The id is
tracked as present exactly when a load whose activation settled
successfully has happened and no later deactivation removed it (a
deactivation whose callback or subscription disposal throws does not
remove). -/
def claimActiveStep (id : String) (acc : Option ActivatedExtension) :
    LoaderOp → Option ActivatedExtension
  | LoaderOp.load _ _ m =>
      if m.hasManifest && m.manifestName == id then
        match m.activateResult with
        | some (Except.error _) => acc
        | some (Except.ok _) => some
            { id := id,
              deactivateFunction := m.deactivateFunction,
              subscriptions := m.subscriptionsRegistered }
        | none => some
            { id := id,
              deactivateFunction := m.deactivateFunction,
              subscriptions := m.subscriptionsRegistered }
      else acc
  | LoaderOp.deactivate j =>
      if j == id then
        match acc with
        | none => none
        | some ext =>
            match ext.deactivateFunction with
            | some (Except.error _) => some ext
            | some (Except.ok _) =>
                match (disposeSubscriptions ext.subscriptions).2 with
                | some _ => some ext
                | none => none
            | none =>
                match (disposeSubscriptions ext.subscriptions).2 with
                | some _ => some ext
                | none => none
      else acc

/-- Fold `claimActiveStep` over an operation sequence. -/
def claimActive (id : String) (acc : Option ActivatedExtension)
    (ops : List LoaderOp) : Option ActivatedExtension :=
  ops.foldl (claimActiveStep id) acc

/-! ## Hot-reload cache invalidation (`ExtensionLoader.loadRuntime`)

`require.cache` maps resolved filenames to `Module` objects that also
reference one another through `parent` and `children`.  Object identity
matters (`indexOf(mod)` compares references, and a module evicted from the
cache can stay referenced as somebody's child), so modules live in a heap
addressed by numeric references: the cache maps keys to references, and
each module object carries its `id` string, its optional `parent`
reference, its `children` array — whose slots can be holes (`none`), since
the source holes out slots with `delete childMod.children[j]` — and an
`exports` presence flag. -/

/-- JavaScript `String.prototype.startsWith`: is `p` a prefix of `s`
(character-wise). -/
def strStartsWith (s p : String) : Bool := p.data.isPrefixOf s.data

/-- JavaScript `String.prototype.endsWith`: is `p` a suffix of `s`
(character-wise). -/
def strEndsWith (s p : String) : Bool := p.data.reverse.isPrefixOf s.data.reverse

/-- A `NodeJS.Module` object. -/
structure CachedModule where
  mid : String
  parent : Option Nat
  children : List (Option Nat)
  hasExports : Bool
deriving DecidableEq

/-- The process-wide module cache: `require.cache` plus the heap of module
objects it (transitively) references. -/
structure RequireState where
  cache : List (String × Nat)
  heap : Nat → CachedModule

/-- Update one heap cell. -/
def hupd (h : Nat → CachedModule) (i : Nat) (f : CachedModule → CachedModule) :
    Nat → CachedModule :=
  fun j => if j = i then f (h j) else h j

/-- JavaScript `Array.prototype.indexOf` by object identity, with `none` standing
for the `-1` result (holes never match an object reference). -/
def jsIndexOf (l : List (Option Nat)) (v : Option Nat) : Option Nat :=
  match l with
  | [] => none
  | x :: xs => if x = v then some 0 else (jsIndexOf xs v).map (· + 1)

/-- One iteration of the inner `while (i--)` loop of `loadRuntime`, at
child index `i` of module `modRef`.  A child slot that holds a module
living under the extension folder and not a native `.node` module gets —
in source order — its `exports` deleted, its slot spliced out of
`mod.children`, and every slot of its own `children` array holed out
(`delete childMod.children[j]` for every index). -/
def childStep (root : String) (modRef : Nat) (i : Nat) (st : RequireState) :
    RequireState :=
  match (st.heap modRef).children.get? i with
  | some (some childRef) =>
      let c := st.heap childRef
      if strStartsWith c.mid root && !strEndsWith c.mid ".node" then
        let st₁ := { st with
          heap := hupd st.heap childRef (fun cm => { cm with hasExports := false }) }
        let st₂ := { st₁ with
          heap := hupd st₁.heap modRef
            (fun mm => { mm with children := mm.children.eraseIdx i }) }
        { st₂ with
          heap := hupd st₂.heap childRef
            (fun cm => { cm with children := cm.children.map (fun _ => none) }) }
      else st
  | some none => st
  | none => st

/-- The inner `while (i--)` loop over `mod.children`, walking indices
from `children.length - 1` down to `0`. -/
def childLoop (root : String) (modRef : Nat) : Nat → RequireState → RequireState
  | 0, st => st
  | i + 1, st => childLoop root modRef i (childStep root modRef i st)

/-- One iteration of the `Object.keys(require.cache).forEach` body of
`loadRuntime` for a single key: skip when the entry is gone or the module
is native; otherwise run the children loop, and for keys under the
extension folder delete the cache entry and splice the module out of its
parent's `children` (the `indexOf(mod) || 0` computation skips the splice
exactly when `indexOf` returns `-1`, and optional chaining makes it a
no-op when there is no parent). -/
def evictStep (root : String) (st : RequireState) (key : String) : RequireState :=
  match mget st.cache key with
  | none => st
  | some modRef =>
      let m := st.heap modRef
      if strEndsWith m.mid ".node" then st
      else
        let st₁ := childLoop root modRef m.children.length st
        if strStartsWith key root then
          let st₂ := { st₁ with cache := mdel st₁.cache key }
          match (st₂.heap modRef).parent with
          | none => st₂
          | some parentRef =>
              match jsIndexOf (st₂.heap parentRef).children (some modRef) with
              | none => st₂
              | some ix =>
                  { st₂ with
                    heap := hupd st₂.heap parentRef
                      (fun pm => { pm with children := pm.children.eraseIdx ix }) }
        else st₁

/-- The cache-invalidation phase of `loadRuntime(extensionPathFolder)`:
the loop body above folded over the snapshot `Object.keys(require.cache)`
taken at entry.  (The subsequent `require(extensionPathFolder)` is the
host module system's fresh import of the entry module, outside this
repository's code.) -/
def loadRuntimeClean (root : String) (st : RequireState) : RequireState :=
  (st.cache.map Prod.fst).foldl (evictStep root) st

/-- A sample module cache: module `0` (`/ext/a.js`, under the extension
folder) is a child of module `1` (`/other/b.js`, outside it). -/
def demoRS : RequireState :=
  { cache := [("/ext/a.js", 0), ("/other/b.js", 1)],
    heap := fun i =>
      if i = 0 then
        { mid := "/ext/a.js", parent := some 1, children := [], hasExports := true }
      else if i = 1 then
        { mid := "/other/b.js", parent := none, children := [some 0], hasExports := true }
      else
        { mid := "", parent := none, children := [], hasExports := false } }

/-! ## Helper lemmas about the map model -/

theorem mget_mset_self {α : Type} (m : List (String × α)) (k : String) (v : α) :
    mget (mset m k v) k = some v := by
  induction m with
  | nil => simp [mget, mset]
  | cons hd tl ih =>
      obtain ⟨k', v'⟩ := hd
      by_cases h : k' = k
      · simp [mget, mset, h]
      · simp [mget, mset, h, ih]

theorem mget_mset_ne {α : Type} (m : List (String × α)) (k k' : String) (v : α)
    (h : k ≠ k') : mget (mset m k v) k' = mget m k' := by
  induction m with
  | nil => simp [mget, mset, h]
  | cons hd tl ih =>
      obtain ⟨k₀, v₀⟩ := hd
      by_cases h₀ : k₀ = k
      · subst h₀; simp [mget, mset, h]
      · simp only [mset, if_neg h₀]
        by_cases h₁ : k₀ = k'
        · simp [mget, h₁]
        · simp [mget, h₁, ih]

theorem mget_eq_none_of_not_mem {α : Type} (m : List (String × α)) (k : String)
    (h : k ∉ m.map Prod.fst) : mget m k = none := by
  induction m with
  | nil => simp [mget]
  | cons hd tl ih =>
      obtain ⟨k', v'⟩ := hd
      simp only [List.map_cons, List.mem_cons] at h
      push_neg at h
      simp [mget, Ne.symm h.1, ih h.2]

theorem mget_mdel_self {α : Type} (m : List (String × α)) (k : String)
    (hnd : (m.map Prod.fst).Nodup) : mget (mdel m k) k = none := by
  induction m with
  | nil => simp [mget, mdel]
  | cons hd tl ih =>
      obtain ⟨k', v'⟩ := hd
      simp only [List.map_cons, List.nodup_cons] at hnd
      by_cases h : k' = k
      · subst h
        simp only [mdel, if_pos rfl]
        exact mget_eq_none_of_not_mem tl k' hnd.1
      · simp only [mdel, if_neg h, mget, if_neg h]
        exact ih hnd.2

theorem mget_mdel_ne {α : Type} (m : List (String × α)) (k k' : String)
    (h : k ≠ k') : mget (mdel m k) k' = mget m k' := by
  induction m with
  | nil => simp [mget, mdel]
  | cons hd tl ih =>
      obtain ⟨k₀, v₀⟩ := hd
      by_cases h₀ : k₀ = k
      · subst h₀
        have h₁ : k₀ ≠ k' := h
        simp [mdel, mget, h₁]
      · simp only [mdel, if_neg h₀]
        by_cases h₁ : k₀ = k'
        · simp [mget, h₁]
        · simp [mget, h₁, ih]

theorem mget_mem_keys {α : Type} (m : List (String × α)) (k : String) (v : α)
    (h : mget m k = some v) : k ∈ m.map Prod.fst := by
  induction m with
  | nil => simp [mget] at h
  | cons hd tl ih =>
      obtain ⟨k', v'⟩ := hd
      by_cases h₀ : k' = k
      · simp [h₀]
      · simp only [mget, if_neg h₀] at h
        simp [ih h]

theorem mset_keys {α : Type} (m : List (String × α)) (k : String) (v : α) :
    (mset m k v).map Prod.fst =
      if k ∈ m.map Prod.fst then m.map Prod.fst else m.map Prod.fst ++ [k] := by
  induction m with
  | nil => simp [mset]
  | cons hd tl ih =>
      obtain ⟨k₀, v₀⟩ := hd
      by_cases h₀ : k₀ = k
      · subst h₀
        simp [mset]
      · have h₁ : k ≠ k₀ := fun h => h₀ h.symm
        simp only [mset, if_neg h₀, List.map_cons, ih, List.mem_cons]
        by_cases h₂ : k ∈ tl.map Prod.fst
        · simp [h₁, h₂]
        · simp [h₁, h₂]

theorem mset_keys_nodup {α : Type} (m : List (String × α)) (k : String) (v : α)
    (h : (m.map Prod.fst).Nodup) : ((mset m k v).map Prod.fst).Nodup := by
  rw [mset_keys]
  by_cases hk : k ∈ m.map Prod.fst
  · simpa [hk] using h
  · simp only [hk, if_false]
    simp [List.nodup_append, h, hk]

theorem mdel_sublist {α : Type} (m : List (String × α)) (k : String) :
    (mdel m k).Sublist m := by
  induction m with
  | nil => simp [mdel]
  | cons hd tl ih =>
      obtain ⟨k₀, v₀⟩ := hd
      by_cases h₀ : k₀ = k
      · simp only [mdel, if_pos h₀]
        exact List.sublist_cons_self _ _
      · simp only [mdel, if_neg h₀]
        exact List.Sublist.cons₂ _ ih

theorem mdel_keys_nodup {α : Type} (m : List (String × α)) (k : String)
    (h : (m.map Prod.fst).Nodup) : ((mdel m k).map Prod.fst).Nodup :=
  ((mdel_sublist m k).map Prod.fst).nodup h

/-! ## Lemmas about the lifecycle operations -/

/-- Lemma: `deactivateDispose` never touches the analyzed map. -/
theorem deactivateDispose_analyzed_eq (st : LoaderState) (id : String)
    (ext : ActivatedExtension) :
    (deactivateDispose st id ext).1.analyzedExtensions = st.analyzedExtensions := by
  unfold deactivateDispose
  cases hdisp : (disposeSubscriptions ext.subscriptions).2 <;> simp [hdisp]

/-- Lemma: `deactivateExtension` never touches the analyzed map. -/
theorem deactivate_analyzed_eq (st : LoaderState) (id : String) :
    (deactivateExtension st id).1.analyzedExtensions = st.analyzedExtensions := by
  unfold deactivateExtension
  cases h : mget st.activatedExtensions id with
  | none => rfl
  | some ext =>
      cases hd : ext.deactivateFunction with
      | none => simp [hd, deactivateDispose_analyzed_eq st id ext]
      | some r =>
          cases r with
          | error e => simp [hd]
          | ok u => simp [hd, deactivateDispose_analyzed_eq st id ext]

/-- Running `disposeSubscriptions` on a list whose first throwing element is `s`:
every earlier dispose is invoked, `s`'s dispose is invoked and throws,
and nothing after `s` is attempted. -/
theorem disposeSubscriptions_first_throw (pre : List Subscription)
    (s : Subscription) (post : List Subscription)
    (hpre : ∀ x ∈ pre, x.throws = false) (hs : s.throws = true) :
    disposeSubscriptions (pre ++ s :: post) =
      (pre.map Subscription.name ++ [s.name], some ("dispose failed: " ++ s.name)) := by
  induction pre with
  | nil => simp [disposeSubscriptions, hs]
  | cons hd tl ih =>
      have hhd : hd.throws = false := hpre hd (by simp)
      have htl : ∀ x ∈ tl, x.throws = false := fun x hx => hpre x (by simp [hx])
      simp [disposeSubscriptions, hhd, ih htl]

/-- One step of the activated-map invariant: applying any lifecycle
operation transforms the entry for `id` exactly as the specification-side
mirror `claimActiveStep` describes. -/
theorem applyLoaderOp_activated (st : LoaderState) (op : LoaderOp) (id : String)
    (hnd : (st.activatedExtensions.map Prod.fst).Nodup) :
    mget (applyLoaderOp st op).activatedExtensions id =
      claimActiveStep id (mget st.activatedExtensions id) op := by
  cases op with
  | load p r m =>
      by_cases hm : m.hasManifest = true
      · cases ha : m.activateResult with
        | none =>
            by_cases hid : m.manifestName = id
            · simp [applyLoaderOp, loadExtension, activateExtension, claimActiveStep,
                hm, ha, hid, mget_mset_self]
            · simp [applyLoaderOp, loadExtension, activateExtension, claimActiveStep,
                hm, ha, hid, mget_mset_ne _ _ _ _ hid]
        | some res =>
            cases res with
            | error e =>
                simp [applyLoaderOp, loadExtension, activateExtension, claimActiveStep, hm, ha]
            | ok u =>
                by_cases hid : m.manifestName = id
                · simp [applyLoaderOp, loadExtension, activateExtension, claimActiveStep,
                    hm, ha, hid, mget_mset_self]
                · simp [applyLoaderOp, loadExtension, activateExtension, claimActiveStep,
                    hm, ha, hid, mget_mset_ne _ _ _ _ hid]
      · simp only [Bool.not_eq_true] at hm
        simp [applyLoaderOp, loadExtension, claimActiveStep, hm]
  | deactivate j =>
      by_cases hj : j = id
      · subst hj
        cases hget : mget st.activatedExtensions j with
        | none => simp [applyLoaderOp, deactivateExtension, claimActiveStep, hget]
        | some ext =>
            cases hd : ext.deactivateFunction with
            | none =>
                cases hdisp : (disposeSubscriptions ext.subscriptions).2 with
                | none =>
                    simp [applyLoaderOp, deactivateExtension, deactivateDispose,
                      claimActiveStep, hget, hd, hdisp, mget_mdel_self _ _ hnd]
                | some e =>
                    simp [applyLoaderOp, deactivateExtension, deactivateDispose,
                      claimActiveStep, hget, hd, hdisp]
            | some res =>
                cases res with
                | error e =>
                    simp [applyLoaderOp, deactivateExtension, claimActiveStep, hget, hd]
                | ok u =>
                    cases hdisp : (disposeSubscriptions ext.subscriptions).2 with
                    | none =>
                        simp [applyLoaderOp, deactivateExtension, deactivateDispose,
                          claimActiveStep, hget, hd, hdisp, mget_mdel_self _ _ hnd]
                    | some e =>
                        simp [applyLoaderOp, deactivateExtension, deactivateDispose,
                          claimActiveStep, hget, hd, hdisp]
      · have hj' : (j == id) = false := by simp [hj]
        cases hget : mget st.activatedExtensions j with
        | none => simp [applyLoaderOp, deactivateExtension, claimActiveStep, hget, hj']
        | some ext =>
            cases hd : ext.deactivateFunction with
            | none =>
                cases hdisp : (disposeSubscriptions ext.subscriptions).2 with
                | none =>
                    simp [applyLoaderOp, deactivateExtension, deactivateDispose,
                      claimActiveStep, hget, hd, hdisp, hj', mget_mdel_ne _ _ _ hj]
                | some e =>
                    simp [applyLoaderOp, deactivateExtension, deactivateDispose,
                      claimActiveStep, hget, hd, hdisp, hj']
            | some res =>
                cases res with
                | error e =>
                    simp [applyLoaderOp, deactivateExtension, claimActiveStep, hget, hd, hj']
                | ok u =>
                    cases hdisp : (disposeSubscriptions ext.subscriptions).2 with
                    | none =>
                        simp [applyLoaderOp, deactivateExtension, deactivateDispose,
                          claimActiveStep, hget, hd, hdisp, hj', mget_mdel_ne _ _ _ hj]
                    | some e =>
                        simp [applyLoaderOp, deactivateExtension, deactivateDispose,
                          claimActiveStep, hget, hd, hdisp, hj']

/-- Every lifecycle operation keeps the activated-map keys duplicate-free. -/
theorem applyLoaderOp_nodup (st : LoaderState) (op : LoaderOp)
    (hnd : (st.activatedExtensions.map Prod.fst).Nodup) :
    ((applyLoaderOp st op).activatedExtensions.map Prod.fst).Nodup := by
  cases op with
  | load p r m =>
      by_cases hm : m.hasManifest = true
      · cases ha : m.activateResult with
        | none =>
            simpa [applyLoaderOp, loadExtension, activateExtension, hm, ha] using
              mset_keys_nodup st.activatedExtensions m.manifestName _ hnd
        | some res =>
            cases res with
            | error e => simpa [applyLoaderOp, loadExtension, activateExtension, hm, ha] using hnd
            | ok u =>
                simpa [applyLoaderOp, loadExtension, activateExtension, hm, ha] using
                  mset_keys_nodup st.activatedExtensions m.manifestName _ hnd
      · simp only [Bool.not_eq_true] at hm
        simpa [applyLoaderOp, loadExtension, hm] using hnd
  | deactivate j =>
      cases hget : mget st.activatedExtensions j with
      | none => simpa [applyLoaderOp, deactivateExtension, hget] using hnd
      | some ext =>
          cases hd : ext.deactivateFunction with
          | none =>
              cases hdisp : (disposeSubscriptions ext.subscriptions).2 with
              | none =>
                  simpa [applyLoaderOp, deactivateExtension, deactivateDispose, hget, hd, hdisp]
                    using mdel_keys_nodup st.activatedExtensions j hnd
              | some e =>
                  simpa [applyLoaderOp, deactivateExtension, deactivateDispose, hget, hd, hdisp]
                    using hnd
          | some res =>
              cases res with
              | error e => simpa [applyLoaderOp, deactivateExtension, hget, hd] using hnd
              | ok u =>
                  cases hdisp : (disposeSubscriptions ext.subscriptions).2 with
                  | none =>
                      simpa [applyLoaderOp, deactivateExtension, deactivateDispose, hget, hd, hdisp]
                        using mdel_keys_nodup st.activatedExtensions j hnd
                  | some e =>
                      simpa [applyLoaderOp, deactivateExtension, deactivateDispose, hget, hd, hdisp]
                        using hnd

/-- The activated-map invariant, folded over whole operation sequences. -/
theorem runLoaderOps_activated (ops : List LoaderOp) (st : LoaderState) (id : String)
    (hnd : (st.activatedExtensions.map Prod.fst).Nodup) :
    mget (runLoaderOps st ops).activatedExtensions id =
      claimActive id (mget st.activatedExtensions id) ops := by
  induction ops generalizing st with
  | nil => rfl
  | cons op rest ih =>
      show mget (runLoaderOps (applyLoaderOp st op) rest).activatedExtensions id = _
      rw [ih (applyLoaderOp st op) (applyLoaderOp_nodup st op hnd),
        applyLoaderOp_activated st op id hnd]
      rfl

/-! ## Claim theorems: extension lifecycle -/

/-- C2.  Along any sequence of lifecycle operations (starting from any
loader state with duplicate-free activated keys), the activated-map entry
of every extension id evolves exactly as the specification states it:
present if and only if an activation has settled successfully and no
later deactivation removed it (`claimActive` restates the claim's
description of presence).  In particular, when `activate`
rejects, `loadExtension` propagates that very error to its caller and the
activated map is left untouched, so the id is never added. -/
theorem claim_C2_activated_iff :
    (∀ (st : LoaderState) (ops : List LoaderOp) (id : String),
        (st.activatedExtensions.map Prod.fst).Nodup →
        mget (runLoaderOps st ops).activatedExtensions id =
          claimActive id (mget st.activatedExtensions id) ops) ∧
    (∀ (st : LoaderState) (p : String) (r : Bool) (m : ExtensionModule) (e : String),
        m.hasManifest = true → m.activateResult = some (Except.error e) →
        (loadExtension st p r m).2 = some e ∧
        (loadExtension st p r m).1.activatedExtensions = st.activatedExtensions) := by
  constructor
  · intro st ops id hnd
    exact runLoaderOps_activated ops st id hnd
  · intro st p r m e hm ha
    constructor <;> simp [loadExtension, activateExtension, hm, ha]

/-- Witness for C2 at a concrete run: an extension that activates
successfully and is then deactivated, plus a module whose `activate`
rejects with `"boom"`. -/
theorem claim_C2_activated_iff_witness :
    mget (runLoaderOps loaderInit
        [LoaderOp.load "/a" true ⟨true, "alpha", some (Except.ok ()), none, []⟩,
         LoaderOp.deactivate "alpha"]).activatedExtensions "alpha" =
      claimActive "alpha" (mget loaderInit.activatedExtensions "alpha")
        [LoaderOp.load "/a" true ⟨true, "alpha", some (Except.ok ()), none, []⟩,
         LoaderOp.deactivate "alpha"] ∧
    (loadExtension loaderInit "/b" true ⟨true, "beta", some (Except.error "boom"), none, []⟩).2 =
      some "boom" :=
  ⟨claim_C2_activated_iff.1 loaderInit _ "alpha" (by simp [loaderInit]),
   (claim_C2_activated_iff.2 loaderInit "/b" true _ "boom" rfl rfl).1⟩

/-- C3 counterexample.  The claim says a throwing `dispose` does not
prevent later subscriptions from being attempted; in the code the
`forEach` loop aborts at the throw.  Concretely: with subscriptions
`subA` (throwing) then `subB`, deactivation invokes only `subA`'s
dispose — `subB` is never attempted. -/
theorem claim_C3_counterexample :
    (deactivateExtension
        { analyzedExtensions := [],
          activatedExtensions :=
            [("ex1", { id := "ex1", deactivateFunction := none,
                       subscriptions := [⟨"subA", true⟩, ⟨"subB", false⟩] })],
          disposed := [], events := [] } "ex1").1.disposed = ["subA"] ∧
    "subB" ∉ (deactivateExtension
        { analyzedExtensions := [],
          activatedExtensions :=
            [("ex1", { id := "ex1", deactivateFunction := none,
                       subscriptions := [⟨"subA", true⟩, ⟨"subB", false⟩] })],
          disposed := [], events := [] } "ex1").1.disposed := by
  decide

/-- C3 as amended.  `deactivateExtension` disposes the context
subscriptions in list order only up to the first dispose that throws: the
earlier disposes and the throwing one are invoked, the error propagates,
no later subscription's dispose is attempted, and the extension remains
in the activated map. -/
theorem claim_C3_amended (st : LoaderState) (id : String) (ext : ActivatedExtension)
    (pre post : List Subscription) (s : Subscription)
    (hget : mget st.activatedExtensions id = some ext)
    (hfn : ext.deactivateFunction = none ∨ ext.deactivateFunction = some (Except.ok ()))
    (hsubs : ext.subscriptions = pre ++ s :: post)
    (hpre : ∀ x ∈ pre, x.throws = false)
    (hs : s.throws = true) :
    (deactivateExtension st id).1.disposed =
        st.disposed ++ (pre.map Subscription.name ++ [s.name]) ∧
    (deactivateExtension st id).2 = some ("dispose failed: " ++ s.name) ∧
    mget (deactivateExtension st id).1.activatedExtensions id = some ext := by
  have hdisp := disposeSubscriptions_first_throw pre s post hpre hs
  rcases hfn with hfn | hfn <;>
    simp [deactivateExtension, deactivateDispose, hget, hfn, hsubs, hdisp]

/-- Witness for the amended C3: one clean subscription, then a throwing
one, then one that is never reached. -/
theorem claim_C3_amended_witness :
    (deactivateExtension
        { analyzedExtensions := [],
          activatedExtensions :=
            [("ex2", { id := "ex2", deactivateFunction := none,
                       subscriptions := [⟨"s0", false⟩, ⟨"s1", true⟩, ⟨"s2", false⟩] })],
          disposed := [], events := [] } "ex2").1.disposed =
      [] ++ ([⟨"s0", false⟩].map Subscription.name ++ [Subscription.name ⟨"s1", true⟩]) :=
  (claim_C3_amended
    { analyzedExtensions := [],
      activatedExtensions :=
        [("ex2", { id := "ex2", deactivateFunction := none,
                   subscriptions := [⟨"s0", false⟩, ⟨"s1", true⟩, ⟨"s2", false⟩] })],
      disposed := [], events := [] } "ex2"
    { id := "ex2", deactivateFunction := none,
      subscriptions := [⟨"s0", false⟩, ⟨"s1", true⟩, ⟨"s2", false⟩] }
    [⟨"s0", false⟩] [⟨"s2", false⟩] ⟨"s1", true⟩
    rfl (Or.inl rfl) rfl (by decide) rfl).1

/-- C4 counterexample.  The claim says `removeExtension` fails with an
error when the id is not in the analyzed map; in the code the whole body
sits inside `if (extension)`, so an unknown id is a silent no-op that
returns without error. -/
theorem claim_C4_counterexample :
    removeExtension loaderInit "missing.ext" = (loaderInit, none) := by
  decide

/-- C4 as amended.  `removeExtension(id)` silently does nothing when the
id is not analyzed; when it is analyzed (and deactivation does not
throw), a non-removable extension makes it fail with an error naming the
id while the extension stays in the analyzed map, and a removable one is
deactivated, its bundle deleted recursively, its entry dropped from the
analyzed map, and a removal notification emitted. -/
theorem claim_C4_amended (st : LoaderState) (id : String) :
    (mget st.analyzedExtensions id = none → removeExtension st id = (st, none)) ∧
    (∀ ext : AnalyzedExtension, mget st.analyzedExtensions id = some ext →
      (deactivateExtension st id).2 = none →
      (ext.removable = false →
        (removeExtension st id).2 = some ("Extension " ++ id ++ " is not removable") ∧
        mget (removeExtension st id).1.analyzedExtensions id = some ext) ∧
      (ext.removable = true →
        removeExtension st id =
          ({ (deactivateExtension st id).1 with
              events := (deactivateExtension st id).1.events ++
                [LEvent.fsRemove ext.path, LEvent.extensionRemoved],
              analyzedExtensions := mdel st.analyzedExtensions id }, none))) := by
  constructor
  · intro h
    simp [removeExtension, h]
  · intro ext hget hde
    constructor
    · intro hrm
      constructor
      · simp [removeExtension, hget, hde, hrm]
      · simp [removeExtension, hget, hde, hrm, deactivate_analyzed_eq, hget]
    · intro hrm
      simp [removeExtension, hget, hde, hrm, deactivate_analyzed_eq]

/-- Witness for the amended C4: an unknown id is a silent no-op, and a
non-removable analyzed extension produces the naming error. -/
theorem claim_C4_amended_witness :
    removeExtension loaderInit "nope" = (loaderInit, none) ∧
    (removeExtension
        { analyzedExtensions := [("pinned", ⟨"pinned", "/plugins/pinned", false⟩)],
          activatedExtensions := [], disposed := [], events := [] } "pinned").2 =
      some ("Extension " ++ "pinned" ++ " is not removable") :=
  ⟨(claim_C4_amended loaderInit "nope").1 rfl,
   (((claim_C4_amended
        { analyzedExtensions := [("pinned", ⟨"pinned", "/plugins/pinned", false⟩)],
          activatedExtensions := [], disposed := [], events := [] } "pinned").2
      ⟨"pinned", "/plugins/pinned", false⟩ rfl (by decide)).1 rfl).1⟩

/-- C8.  `loadExtension` on a folder with no `package.json` does not
throw: it logs the warning and returns with every map untouched — no
`AnalyzedExtension` is registered, so a failed folder cannot abort a bulk
scan joining independent `loadExtension` calls. -/
theorem claim_C8_missing_manifest (st : LoaderState) (extensionPath : String)
    (removable : Bool) (m : ExtensionModule) (h : m.hasManifest = false) :
    loadExtension st extensionPath removable m =
      ({ st with events := st.events ++ [LEvent.warnNoManifest extensionPath] }, none) := by
  simp [loadExtension, h]

/-- Witness for C8 on a concrete folder without a manifest. -/
theorem claim_C8_missing_manifest_witness :
    loadExtension loaderInit "/plugins/broken" false ⟨false, "x", none, none, []⟩ =
      ({ loaderInit with
          events := loaderInit.events ++ [LEvent.warnNoManifest "/plugins/broken"] }, none) :=
  claim_C8_missing_manifest loaderInit "/plugins/broken" false _ rfl

/-- C9.  When the stored `deactivate` callback rejects,
`deactivateExtension` propagates that error having changed nothing: the
returned state is the input state, so the id is still in the activated
map and no subscription dispose was invoked — the callback is awaited
before any disposal or map removal. -/
theorem claim_C9_deactivate_throw (st : LoaderState) (id : String)
    (ext : ActivatedExtension) (e : String)
    (hget : mget st.activatedExtensions id = some ext)
    (hthrow : ext.deactivateFunction = some (Except.error e)) :
    deactivateExtension st id = (st, some e) := by
  simp [deactivateExtension, hget, hthrow]

/-! ## Lemmas about the module-cache invalidation -/

theorem jsIndexOf_none_notMem (l : List (Option Nat)) (v : Option Nat)
    (h : jsIndexOf l v = none) : v ∉ l := by
  induction l with
  | nil => simp
  | cons x xs ih =>
      by_cases hx : x = v
      · simp [jsIndexOf, hx] at h
      · simp only [jsIndexOf, if_neg hx, Option.map_eq_none'] at h
        simp only [List.mem_cons, not_or]
        exact ⟨fun hc => hx hc.symm, ih h⟩

theorem jsIndexOf_some_mem (l : List (Option Nat)) (v : Option Nat) (i : Nat)
    (h : jsIndexOf l v = some i) : v ∈ l := by
  induction l generalizing i with
  | nil => simp [jsIndexOf] at h
  | cons x xs ih =>
      by_cases hx : x = v
      · simp [hx]
      · simp only [jsIndexOf, if_neg hx] at h
        cases hf : jsIndexOf xs v with
        | none => simp [hf] at h
        | some j => exact List.mem_cons_of_mem x (ih j hf)

theorem jsIndexOf_count_eraseIdx (l : List (Option Nat)) (v : Option Nat) (i : Nat)
    (h : jsIndexOf l v = some i) :
    ((l.eraseIdx i).count v) = l.count v - 1 := by
  induction l generalizing i with
  | nil => simp [jsIndexOf] at h
  | cons x xs ih =>
      by_cases hx : x = v
      · subst hx
        have h0 : i = 0 := by
          simp [jsIndexOf] at h
          omega
        subst h0
        simp [List.count_cons_self]
      · simp only [jsIndexOf, if_neg hx] at h
        cases hf : jsIndexOf xs v with
        | none => simp [hf] at h
        | some j =>
            rw [hf] at h
            have hij : i = j + 1 := by
              simpa using h.symm
            subst hij
            have hxv : ¬(x == v) = true := by simpa using hx
            simp [List.eraseIdx_cons_succ, List.count_cons, hxv, ih j hf]

theorem count_map_none (l : List (Option Nat)) (q : Nat) :
    ((l.map (fun _ => none)).count (some q)) = 0 := by
  rw [List.count_eq_zero]
  simp

theorem hupd_self (h : Nat → CachedModule) (i : Nat) (f : CachedModule → CachedModule) :
    hupd h i f i = f (h i) := by
  simp [hupd]

theorem hupd_other (h : Nat → CachedModule) (i : Nat) (f : CachedModule → CachedModule)
    (j : Nat) (hj : j ≠ i) : hupd h i f j = h j := by
  simp [hupd, hj]

theorem hupd_mid (h : Nat → CachedModule) (i : Nat) (f : CachedModule → CachedModule)
    (hf : ∀ m, (f m).mid = m.mid) (j : Nat) : ((hupd h i f) j).mid = (h j).mid := by
  unfold hupd
  by_cases hj : j = i <;> simp [hj, hf]

theorem hupd_parent (h : Nat → CachedModule) (i : Nat) (f : CachedModule → CachedModule)
    (hf : ∀ m, (f m).parent = m.parent) (j : Nat) :
    ((hupd h i f) j).parent = (h j).parent := by
  unfold hupd
  by_cases hj : j = i <;> simp [hj, hf]

theorem hupd_count_le (h : Nat → CachedModule) (i : Nat) (f : CachedModule → CachedModule)
    (q : Nat)
    (hf : ∀ m, (((f m).children.count (some q))) ≤ ((m.children.count (some q))))
    (p : Nat) :
    (((hupd h i f) p).children.count (some q)) ≤ ((h p).children.count (some q)) := by
  unfold hupd
  by_cases hp : p = i
  · simp only [hp, if_pos rfl]
    exact hf _
  · simp [hp]

theorem childUpd_mid (h : Nat → CachedModule) (c r i j : Nat) :
    ((hupd (hupd (hupd h c (fun cm => { cm with hasExports := false })) r
        (fun mm => { mm with children := mm.children.eraseIdx i })) c
        (fun cm => { cm with children := cm.children.map (fun _ => none) })) j).mid =
      (h j).mid := by
  unfold hupd
  by_cases h1 : j = c
  · subst h1
    simp only [if_pos rfl]
    by_cases h2 : j = r <;> simp [h2]
  · by_cases h2 : j = r
    · subst h2
      simp [h1]
    · simp [h1, h2]

theorem childUpd_parent (h : Nat → CachedModule) (c r i j : Nat) :
    ((hupd (hupd (hupd h c (fun cm => { cm with hasExports := false })) r
        (fun mm => { mm with children := mm.children.eraseIdx i })) c
        (fun cm => { cm with children := cm.children.map (fun _ => none) })) j).parent =
      (h j).parent := by
  unfold hupd
  by_cases h1 : j = c
  · subst h1
    simp only [if_pos rfl]
    by_cases h2 : j = r <;> simp [h2]
  · by_cases h2 : j = r
    · subst h2
      simp [h1]
    · simp [h1, h2]

theorem childUpd_count_le (h : Nat → CachedModule) (c r i p q : Nat) :
    (((hupd (hupd (hupd h c (fun cm => { cm with hasExports := false })) r
        (fun mm => { mm with children := mm.children.eraseIdx i })) c
        (fun cm => { cm with children := cm.children.map (fun _ => none) })) p).children.count
        (some q)) ≤
      ((h p).children.count (some q)) := by
  unfold hupd
  by_cases h1 : p = c
  · subst h1
    simp [List.count_replicate]
  · by_cases h2 : p = r
    · subst h2
      simp [h1]
      exact (List.eraseIdx_sublist _ i).count_le _
    · simp [h1, h2]

theorem childStep_cache (root : String) (r i : Nat) (st : RequireState) :
    (childStep root r i st).cache = st.cache := by
  unfold childStep
  split
  · dsimp only
    split <;> rfl
  · rfl
  · rfl

theorem childStep_mid (root : String) (r i : Nat) (st : RequireState) (j : Nat) :
    ((childStep root r i st).heap j).mid = (st.heap j).mid := by
  unfold childStep
  split
  · dsimp only
    split
    · exact childUpd_mid st.heap _ r i j
    · rfl
  · rfl
  · rfl

theorem childStep_parent (root : String) (r i : Nat) (st : RequireState) (j : Nat) :
    ((childStep root r i st).heap j).parent = (st.heap j).parent := by
  unfold childStep
  split
  · dsimp only
    split
    · exact childUpd_parent st.heap _ r i j
    · rfl
  · rfl
  · rfl

theorem childStep_count_le (root : String) (r i : Nat) (st : RequireState) (p q : Nat) :
    (((childStep root r i st).heap p).children.count (some q)) ≤
      ((st.heap p).children.count (some q)) := by
  unfold childStep
  split
  · dsimp only
    split
    · exact childUpd_count_le st.heap _ r i p q
    · exact le_refl _
  · exact le_refl _
  · exact le_refl _

theorem childLoop_cache (root : String) (r : Nat) (n : Nat) (st : RequireState) :
    (childLoop root r n st).cache = st.cache := by
  induction n generalizing st with
  | zero => rfl
  | succ i ih => rw [childLoop, ih, childStep_cache]

theorem childLoop_mid (root : String) (r : Nat) (n : Nat) (st : RequireState) (j : Nat) :
    ((childLoop root r n st).heap j).mid = (st.heap j).mid := by
  induction n generalizing st with
  | zero => rfl
  | succ i ih => rw [childLoop, ih, childStep_mid]

theorem childLoop_parent (root : String) (r : Nat) (n : Nat) (st : RequireState) (j : Nat) :
    ((childLoop root r n st).heap j).parent = (st.heap j).parent := by
  induction n generalizing st with
  | zero => rfl
  | succ i ih => rw [childLoop, ih, childStep_parent]

theorem childLoop_count_le (root : String) (r : Nat) (n : Nat) (st : RequireState)
    (p q : Nat) :
    (((childLoop root r n st).heap p).children.count (some q)) ≤
      ((st.heap p).children.count (some q)) := by
  induction n generalizing st with
  | zero => exact le_refl _
  | succ i ih =>
      rw [childLoop]
      exact le_trans (ih (childStep root r i st)) (childStep_count_le root r i st p q)

theorem spliceUpd_mid (h : Nat → CachedModule) (p ix j : Nat) :
    ((hupd h p (fun pm => { pm with children := pm.children.eraseIdx ix })) j).mid =
      (h j).mid := by
  unfold hupd
  by_cases hj : j = p <;> simp [hj]

theorem spliceUpd_parent (h : Nat → CachedModule) (p ix j : Nat) :
    ((hupd h p (fun pm => { pm with children := pm.children.eraseIdx ix })) j).parent =
      (h j).parent := by
  unfold hupd
  by_cases hj : j = p <;> simp [hj]

theorem spliceUpd_count_le (h : Nat → CachedModule) (p ix j q : Nat) :
    (((hupd h p (fun pm => { pm with children := pm.children.eraseIdx ix })) j).children.count
        (some q)) ≤ ((h j).children.count (some q)) := by
  unfold hupd
  by_cases hj : j = p
  · simp only [hj, if_pos rfl]
    exact (List.eraseIdx_sublist _ ix).count_le _
  · simp [hj]

theorem evictStep_mid (root : String) (st : RequireState) (k : String) (j : Nat) :
    ((evictStep root st k).heap j).mid = (st.heap j).mid := by
  unfold evictStep
  split
  · rfl
  · dsimp only
    split
    · rfl
    · split
      · split
        · exact childLoop_mid root _ _ st j
        · split
          · exact childLoop_mid root _ _ st j
          · rw [spliceUpd_mid]
            exact childLoop_mid root _ _ st j
      · exact childLoop_mid root _ _ st j

theorem evictStep_parent (root : String) (st : RequireState) (k : String) (j : Nat) :
    ((evictStep root st k).heap j).parent = (st.heap j).parent := by
  unfold evictStep
  split
  · rfl
  · dsimp only
    split
    · rfl
    · split
      · split
        · exact childLoop_parent root _ _ st j
        · split
          · exact childLoop_parent root _ _ st j
          · rw [spliceUpd_parent]
            exact childLoop_parent root _ _ st j
      · exact childLoop_parent root _ _ st j

theorem evictStep_count_le (root : String) (st : RequireState) (k : String) (p q : Nat) :
    (((evictStep root st k).heap p).children.count (some q)) ≤
      ((st.heap p).children.count (some q)) := by
  unfold evictStep
  split
  · exact le_refl _
  · dsimp only
    split
    · exact le_refl _
    · split
      · split
        · exact childLoop_count_le root _ _ st p q
        · split
          · exact childLoop_count_le root _ _ st p q
          · exact le_trans (spliceUpd_count_le _ _ _ p q)
              (childLoop_count_le root _ _ st p q)
      · exact childLoop_count_le root _ _ st p q

theorem evictStep_cache_other (root : String) (st : RequireState) (k key : String)
    (hne : k ≠ key) :
    mget (evictStep root st k).cache key = mget st.cache key := by
  unfold evictStep
  split
  · rfl
  · dsimp only
    split
    · rfl
    · split
      · split
        · dsimp only
          rw [childLoop_cache, mget_mdel_ne _ _ _ hne]
        · split
          · dsimp only
            rw [childLoop_cache, mget_mdel_ne _ _ _ hne]
          · dsimp only
            rw [childLoop_cache, mget_mdel_ne _ _ _ hne]
      · rw [childLoop_cache]

theorem evictStep_cache_nonroot (root : String) (st : RequireState) (k key : String)
    (hk : strStartsWith key root = false) :
    mget (evictStep root st k).cache key = mget st.cache key := by
  by_cases hne : k = key
  · subst hne
    unfold evictStep
    split
    · rfl
    · dsimp only
      split
      · rfl
      · rw [if_neg (by simp [hk])]
        rw [childLoop_cache]
  · exact evictStep_cache_other root st k key hne

theorem evictStep_cache_none (root : String) (st : RequireState) (k key : String)
    (h : mget st.cache key = none) :
    mget (evictStep root st k).cache key = none := by
  by_cases hne : k = key
  · subst hne
    unfold evictStep
    simp only [h]
  · rw [evictStep_cache_other root st k key hne]
    exact h

theorem evictStep_nodup (root : String) (st : RequireState) (k : String)
    (hnd : (st.cache.map Prod.fst).Nodup) :
    ((evictStep root st k).cache.map Prod.fst).Nodup := by
  unfold evictStep
  split
  · exact hnd
  · dsimp only
    split
    · exact hnd
    · split
      · split
        · dsimp only
          rw [childLoop_cache]
          exact mdel_keys_nodup _ _ hnd
        · split
          · dsimp only
            rw [childLoop_cache]
            exact mdel_keys_nodup _ _ hnd
          · dsimp only
            rw [childLoop_cache]
            exact mdel_keys_nodup _ _ hnd
      · rw [childLoop_cache]
        exact hnd

theorem evictStep_self_evict (root : String) (st : RequireState) (key : String)
    (modRef : Nat) (hget : mget st.cache key = some modRef)
    (hroot : strStartsWith key root = true)
    (hnode : strEndsWith (st.heap modRef).mid ".node" = false)
    (hnd : (st.cache.map Prod.fst).Nodup) :
    mget (evictStep root st key).cache key = none := by
  unfold evictStep
  rw [hget]
  dsimp only
  rw [if_neg (by simp [hnode]), if_pos hroot]
  split
  · dsimp only
    rw [childLoop_cache]
    exact mget_mdel_self _ _ hnd
  · split
    · dsimp only
      rw [childLoop_cache]
      exact mget_mdel_self _ _ hnd
    · dsimp only
      rw [childLoop_cache]
      exact mget_mdel_self _ _ hnd

theorem evictStep_strike (root : String) (st : RequireState) (key : String)
    (modRef parentRef : Nat) (hget : mget st.cache key = some modRef)
    (hroot : strStartsWith key root = true)
    (hnode : strEndsWith (st.heap modRef).mid ".node" = false)
    (hpar : (st.heap modRef).parent = some parentRef)
    (hcount : ((st.heap parentRef).children.count (some modRef)) ≤ 1) :
    (((evictStep root st key).heap parentRef).children.count (some modRef)) = 0 := by
  unfold evictStep
  rw [hget]
  dsimp only
  rw [if_neg (by simp [hnode]), if_pos hroot]
  have hpar₁ :
      ((childLoop root modRef (st.heap modRef).children.length st).heap modRef).parent =
        some parentRef := by
    rw [childLoop_parent]
    exact hpar
  simp only [hpar₁]
  have hcount₁ :
      (((childLoop root modRef (st.heap modRef).children.length st).heap
          parentRef).children.count (some modRef)) ≤ 1 :=
    le_trans (childLoop_count_le root modRef (st.heap modRef).children.length st parentRef
      modRef) hcount
  split
  next hidx =>
    rw [List.count_eq_zero]
    exact jsIndexOf_none_notMem _ _ hidx
  next ix hidx =>
    dsimp only
    rw [hupd_self, jsIndexOf_count_eraseIdx _ _ _ hidx]
    have hmem := jsIndexOf_some_mem _ _ _ hidx
    have hge : 1 ≤ (((childLoop root modRef (st.heap modRef).children.length st).heap
        parentRef).children.count (some modRef)) := List.one_le_count_iff.mpr hmem
    omega

theorem evictFold_cache_nonroot (root : String) (ks : List String) (st : RequireState)
    (key : String) (hk : strStartsWith key root = false) :
    mget (ks.foldl (evictStep root) st).cache key = mget st.cache key := by
  induction ks generalizing st with
  | nil => rfl
  | cons k rest ih =>
      rw [List.foldl_cons, ih (evictStep root st k),
        evictStep_cache_nonroot root st k key hk]

theorem evictFold_cache_none (root : String) (ks : List String) (st : RequireState)
    (key : String) (h : mget st.cache key = none) :
    mget (ks.foldl (evictStep root) st).cache key = none := by
  induction ks generalizing st with
  | nil => exact h
  | cons k rest ih =>
      rw [List.foldl_cons]
      exact ih (evictStep root st k) (evictStep_cache_none root st k key h)

theorem evictFold_count_le (root : String) (ks : List String) (st : RequireState)
    (p q : Nat) :
    (((ks.foldl (evictStep root) st).heap p).children.count (some q)) ≤
      ((st.heap p).children.count (some q)) := by
  induction ks generalizing st with
  | nil => exact le_refl _
  | cons k rest ih =>
      rw [List.foldl_cons]
      exact le_trans (ih (evictStep root st k)) (evictStep_count_le root st k p q)

theorem evictFold_evict (root : String) (ks : List String) :
    ∀ (st : RequireState) (key : String) (modRef : Nat),
      (st.cache.map Prod.fst).Nodup →
      mget st.cache key = some modRef →
      strStartsWith key root = true →
      strEndsWith (st.heap modRef).mid ".node" = false →
      key ∈ ks →
      mget (ks.foldl (evictStep root) st).cache key = none := by
  induction ks with
  | nil =>
      intro st key modRef _ _ _ _ hmem
      simp at hmem
  | cons k rest ih =>
      intro st key modRef hnd hget hroot hnode hmem
      rw [List.foldl_cons]
      by_cases hk : k = key
      · subst hk
        exact evictFold_cache_none root rest _ k
          (evictStep_self_evict root st k modRef hget hroot hnode hnd)
      · have hmem' : key ∈ rest := by
          rcases List.mem_cons.mp hmem with h | h
          · exact absurd h.symm hk
          · exact h
        refine ih (evictStep root st k) key modRef (evictStep_nodup root st k hnd) ?_ hroot
          ?_ hmem'
        · rw [evictStep_cache_other root st k key hk]
          exact hget
        · rw [evictStep_mid]
          exact hnode

theorem evictFold_strike (root : String) (ks : List String) :
    ∀ (st : RequireState) (key : String) (modRef parentRef : Nat),
      (st.cache.map Prod.fst).Nodup →
      mget st.cache key = some modRef →
      strStartsWith key root = true →
      strEndsWith (st.heap modRef).mid ".node" = false →
      (st.heap modRef).parent = some parentRef →
      ((st.heap parentRef).children.count (some modRef)) ≤ 1 →
      key ∈ ks →
      (((ks.foldl (evictStep root) st).heap parentRef).children.count (some modRef)) = 0 := by
  induction ks with
  | nil =>
      intro st key modRef parentRef _ _ _ _ _ _ hmem
      simp at hmem
  | cons k rest ih =>
      intro st key modRef parentRef hnd hget hroot hnode hpar hcount hmem
      rw [List.foldl_cons]
      by_cases hk : k = key
      · subst hk
        have h0 := evictStep_strike root st k modRef parentRef hget hroot hnode hpar hcount
        have hle := evictFold_count_le root rest (evictStep root st k) parentRef modRef
        omega
      · have hmem' : key ∈ rest := by
          rcases List.mem_cons.mp hmem with h | h
          · exact absurd h.symm hk
          · exact h
        refine ih (evictStep root st k) key modRef parentRef (evictStep_nodup root st k hnd)
          ?_ hroot ?_ ?_ ?_ hmem'
        · rw [evictStep_cache_other root st k key hk]
          exact hget
        · rw [evictStep_mid]
          exact hnode
        · rw [evictStep_parent]
          exact hpar
        · exact le_trans (evictStep_count_le root st k parentRef modRef) hcount

/-! ## Claim theorems: authentication broker -/

/-- C1 (code-bug demonstration).  The claim — following the specified
intent of the serial login-dialog queue — says the
`display-authentication-dialog` broadcast of a later request fires only
after the previous dialog's close notification.  In the code the
broadcast lives in a `Promise` executor that runs synchronously when the
callback is invoked, before `sccheduleLoginDialog` chains the promise
onto the queue, so the queue delays nothing: invoking the login callback
for provider `p1` and then for provider `p2` — with no dialog ever
closed — emits both display broadcasts, the second with no close
notification preceding it. -/
theorem claim_C1_dialog_queue_bug :
    (invokeLoginCallback (invokeLoginCallback authInit "p1" "https://auth.one")
        "p2" "https://auth.two").sent =
      [AEvent.displayDialog "https://auth.one" "p1",
       AEvent.displayDialog "https://auth.two" "p2"] ∧
    AEvent.closeDialog ∉
      (invokeLoginCallback (invokeLoginCallback authInit "p1" "https://auth.one")
        "p2" "https://auth.two").sent := by
  decide

/-- C5.  Registering an authentication provider under an id that is
already in the provider map throws the error naming that id and mutates
nothing: the returned state is the input state, and in particular the
map entry of the id still holds the first registration. -/
theorem claim_C5_duplicate_register (st : AuthState) (id label : String)
    (provider : ProviderState) (options : Option Bool) (meta : ProviderWithMetadata)
    (hget : mget st.providers id = some meta) :
    registerAuthenticationProvider st id label provider options =
      (st, some ("An authentication provider with id '" ++ id ++ "' is already registered.")) ∧
    mget (registerAuthenticationProvider st id label provider options).1.providers id =
      some meta := by
  have h1 : (mget st.providers id).isSome := by simp [hget]
  refine ⟨?_, ?_⟩ <;> simp [registerAuthenticationProvider, h1, hget]

/-- Witness for C5: re-registering the already-registered `github`
provider fails with the naming error. -/
theorem claim_C5_duplicate_register_witness :
    registerAuthenticationProvider demoAuthState "github" "GitHub again"
        { session := none, mkSession := demoMkSession } none =
      (demoAuthState,
        some ("An authentication provider with id '" ++ "github" ++ "' is already registered.")) :=
  (claim_C5_duplicate_register demoAuthState "github" "GitHub again"
    { session := none, mkSession := demoMkSession } none demoMeta rfl).1

/-- C6.  For a registered provider, `getSession` with default options
invokes the provider's `createSession` exactly when the provider reports
no session for the requested scopes; when it reports one (the stubbed
access policy always allows), the first reported session is returned with
no `createSession` call.  Consequently a first `getSession` against the
empty provider calls `createSession` exactly once and a second
`getSession` with the same scopes reuses the created session, calling
`createSession` zero more times. -/
theorem claim_C6_session_reuse (st : AuthState) (extId pid : String)
    (scopes : List String) (meta : ProviderWithMetadata)
    (hget : mget st.providers pid = some meta) :
    (providerGetSessions meta.provider scopes = [] →
        (getSession st extId pid scopes {}).createSessionCalls = 1 ∧
        (getSession st extId pid scopes {}).result =
          Except.ok (meta.provider.mkSession scopes)) ∧
    (∀ (s : Session) (rest : List Session),
        providerGetSessions meta.provider scopes = s :: rest →
        getSession st extId pid scopes {} = ⟨st, Except.ok s, 0⟩) ∧
    (meta.provider.session = none →
        (getSession st extId pid scopes {}).createSessionCalls = 1 ∧
        ∀ extId2 : String,
          getSession (getSession st extId pid scopes {}).state extId2 pid scopes {} =
            ⟨(getSession st extId pid scopes {}).state,
              Except.ok (meta.provider.mkSession scopes), 0⟩) := by
  refine ⟨?_, ?_, ?_⟩
  · intro hempty
    constructor <;>
      simp [getSession, hget, hempty, providerCreateSession]
  · intro s rest hcons
    simp [getSession, hget, hcons, isAccessAllowed]
  · intro hsess
    have hempty : providerGetSessions meta.provider scopes = [] := by
      simp [providerGetSessions, hsess]
    refine ⟨by simp [getSession, hget, hempty, providerCreateSession], ?_⟩
    intro extId2
    simp only [getSession, hget, hempty, providerCreateSession]
    simp [mget_mset_self, providerGetSessions, isAccessAllowed]

/-- Witness for C6: against the sample empty provider, the first call
creates a session once and the second call reuses it with no further
`createSession` invocation. -/
theorem claim_C6_session_reuse_witness :
    (getSession demoAuthState "ext1" "github" ["scope1"] {}).createSessionCalls = 1 ∧
    getSession (getSession demoAuthState "ext1" "github" ["scope1"] {}).state
        "ext2" "github" ["scope1"] {} =
      ⟨(getSession demoAuthState "ext1" "github" ["scope1"] {}).state,
        Except.ok (demoMkSession ["scope1"]), 0⟩ :=
  ⟨((claim_C6_session_reuse demoAuthState "ext1" "github" ["scope1"] demoMeta rfl).2.2 rfl).1,
   ((claim_C6_session_reuse demoAuthState "ext1" "github" ["scope1"] demoMeta rfl).2.2 rfl).2
     "ext2"⟩

/-- C10.  `loginDialogClosedByUser` for a provider with no pending
login-dialog request is a total no-op: the optional-chained
`callback?.dispose()` never runs, so nothing is thrown, no
`close-authentication-dialog` event is sent, and the returned state — the
pending-request map and the dialog queue included — is exactly the input
state. -/
theorem claim_C10_close_without_request (st : AuthState) (providerId : String)
    (h : mget st.loginDialogRequests providerId = none) :
    loginDialogClosedByUser st providerId = st := by
  simp [loginDialogClosedByUser, h]

/-- Witness for C10 on a fresh broker with no pending requests. -/
theorem claim_C10_close_without_request_witness :
    loginDialogClosedByUser authInit "github" = authInit :=
  claim_C10_close_without_request authInit "github" rfl

/-! ## Claim theorem: hot-reload cache invalidation -/

/-- C7.  After the cache-invalidation loop of `loadRuntime(root)` (run on
a cache whose key snapshot is duplicate-free), every entry of the
original cache whose key lies under `root` and whose module is not a
native binary (`id` not ending in `.node`) has been removed from the
cache and no longer appears in its parent's children list (assuming the
parent listed it at most once, as Node's loader does) — so the
re-import that follows re-executes the extension's top-level code —
while every entry whose key does not lie under `root` still maps to the
very same module object (the same heap reference) as before. -/
theorem claim_C7_cache_invalidation (st : RequireState) (root : String)
    (hnd : (st.cache.map Prod.fst).Nodup) :
    (∀ key : String, strStartsWith key root = false →
        mget (loadRuntimeClean root st).cache key = mget st.cache key) ∧
    (∀ (key : String) (modRef : Nat), mget st.cache key = some modRef →
        strStartsWith key root = true →
        strEndsWith (st.heap modRef).mid ".node" = false →
        mget (loadRuntimeClean root st).cache key = none ∧
        (∀ parentRef : Nat, (st.heap modRef).parent = some parentRef →
            ((st.heap parentRef).children.count (some modRef)) ≤ 1 →
            (some modRef) ∉ ((loadRuntimeClean root st).heap parentRef).children)) := by
  constructor
  · intro key hk
    exact evictFold_cache_nonroot root _ st key hk
  · intro key modRef hget hroot hnode
    constructor
    · exact evictFold_evict root _ st key modRef hnd hget hroot hnode
        (mget_mem_keys _ _ _ hget)
    · intro parentRef hpar hcount
      rw [← List.count_eq_zero]
      exact evictFold_strike root _ st key modRef parentRef hnd hget hroot hnode hpar
        hcount (mget_mem_keys _ _ _ hget)

/-- Witness for C7 on the sample two-module cache: the extension module
is evicted from the cache and from its parent's children, the unrelated
module keeps its cache entry. -/
theorem claim_C7_cache_invalidation_witness :
    mget (loadRuntimeClean "/ext" demoRS).cache "/ext/a.js" = none ∧
    (some 0) ∉ ((loadRuntimeClean "/ext" demoRS).heap 1).children ∧
    mget (loadRuntimeClean "/ext" demoRS).cache "/other/b.js" =
      mget demoRS.cache "/other/b.js" :=
  ⟨((claim_C7_cache_invalidation demoRS "/ext" (by decide)).2 "/ext/a.js" 0
      (by decide) (by decide) (by decide)).1,
   ((claim_C7_cache_invalidation demoRS "/ext" (by decide)).2 "/ext/a.js" 0
      (by decide) (by decide) (by decide)).2 1 (by decide) (by decide),
   (claim_C7_cache_invalidation demoRS "/ext" (by decide)).1 "/other/b.js" (by decide)⟩

/-- Witness for C9 on a concrete activated extension whose `deactivate`
rejects with `"bad"`. -/
theorem claim_C9_deactivate_throw_witness :
    deactivateExtension
        { analyzedExtensions := [],
          activatedExtensions :=
            [("gamma", { id := "gamma",
                         deactivateFunction := some (Except.error "bad"),
                         subscriptions := [⟨"s1", false⟩] })],
          disposed := [], events := [] } "gamma" =
      ({ analyzedExtensions := [],
          activatedExtensions :=
            [("gamma", { id := "gamma",
                         deactivateFunction := some (Except.error "bad"),
                         subscriptions := [⟨"s1", false⟩] })],
          disposed := [], events := [] }, some "bad") :=
  claim_C9_deactivate_throw _ "gamma" _ "bad" rfl rfl

end PodmanDesktop
